import Mathlib

/-!
Verification of the ABI type decomposition and entity-graph generation logic of
the `solidity-events-to-typeorm` generator.

The TypeScript sources are embedded shallowly: each generator function becomes a
pure Lean function on `String`/`List Char`, JavaScript regular-expression
behaviour is implemented explicitly (including greedy backtracking where it is
observable), and `parseInt`'s possible `NaN` result is modelled by `Option Int`
(`none` standing for `NaN`).
-/

/-! ## Character and string scanning utilities

These model the observable behaviour of the JavaScript regular expressions used
by `src/utils/getTypeDetails.ts` and `src/generator/entity.generator.ts`.
-/

/-- Boolean test that `pat` is a prefix of `s`, character by character. -/
def headMatch : List Char → List Char → Bool
  | [], _ => true
  | _ :: _, [] => false
  | p :: ps, c :: cs => p == c && headMatch ps cs

/-- Helper for `subIdxs`: indices (offset by `i`) of the suffixes of `s` at
which `pat` occurs. -/
def subIdxsGo (pat : List Char) : Nat → List Char → List Nat
  | i, [] => if headMatch pat [] = true then [i] else []
  | i, c :: cs =>
    (if headMatch pat (c :: cs) = true then [i] else []) ++ subIdxsGo pat (i + 1) cs

/-- All indices of `s` at which the pattern `pat` occurs as a substring.
`String.prototype.lastIndexOf` and global match counting are read off this
list. -/
def subIdxs (pat s : List Char) : List Nat := subIdxsGo pat 0 s

/-- Replacement of the first occurrence of `pat` by `repl`, the behaviour of
JavaScript `String.prototype.replace` with a plain-string pattern. -/
def replaceFirstL (pat repl s : List Char) : List Char :=
  match (subIdxs pat s).head? with
  | none => s
  | some i => s.take i ++ repl ++ s.drop (i + pat.length)

/-- String-level wrapper for `replaceFirstL`. -/
def replaceFirst (pat repl s : String) : String :=
  ⟨replaceFirstL pat.data repl.data s.data⟩

/-- Boolean test that the string `s` starts with `pat`. -/
def textStartsWith (s pat : String) : Bool := headMatch pat.data s.data

/-- Index of the last occurrence of character `c` in `s`. -/
def lastIdx (c : Char) : List Char → Option Nat
  | [] => none
  | x :: xs =>
    match lastIdx c xs with
    | some j => some (j + 1)
    | none => if x = c then some 0 else none

/-- First maximal run of ASCII letters in `s`: the first match of the
regular expression `[a-zA-Z]+` (line 81 of `getTypeDetails.ts`). -/
def firstAlphaRun (s : List Char) : List Char :=
  (s.dropWhile (fun c => !c.isAlpha)).takeWhile (fun c => c.isAlpha)

/-- Capture group of `/.*\[(.*)\].*/` (line 83 of `getTypeDetails.ts`).
The leading `.*` is greedy, so the regex engine settles on the **last** `[`
that still has a `]` after it, and the inner greedy `(.*)` then extends to the
last `]` of the string.  Equivalently: take the last `]` of the string and
capture everything after the last `[` preceding it.  `none` means the regex
does not match at all. -/
def lastBracketCapture (s : List Char) : Option (List Char) :=
  match lastIdx ']' s with
  | none => none
  | some j =>
    match lastIdx '[' (s.take j) with
    | none => none
    | some i => some ((s.take j).drop (i + 1))

/-- Leading decimal-digit value of a character list; `none` when there is no
leading digit (JavaScript `parseInt` returning `NaN`). -/
def digitsVal (ds : List Char) : Option Int :=
  let run := ds.takeWhile (fun c => c.isDigit)
  if run.isEmpty then none
  else some (Int.ofNat (run.foldl (fun a c => 10 * a + (c.toNat - '0'.toNat)) 0))

/-- JavaScript `parseInt` on the capture strings produced here: an optional
sign followed by leading decimal digits; `none` models `NaN`. -/
def parseIntJS : List Char → Option Int
  | '-' :: rest => (digitsVal rest).map (fun n => -n)
  | '+' :: rest => digitsVal rest
  | s => digitsVal s

/-- First match of `/[0-9]+(?!\])/` (line 97 of `getTypeDetails.ts`).
At the first maximal digit run: if the run is followed by `]` the greedy `+`
backtracks one digit, which succeeds exactly when the run has at least two
digits (the character after the shortened match is then a digit, not `]`);
a one-digit run followed by `]` fails entirely and scanning resumes after it. -/
def digitRunScan : List Char → Option (List Char)
  | [] => none
  | c :: cs =>
    if c.isDigit then
      let run := c :: cs.takeWhile (fun x => x.isDigit)
      let rest := cs.dropWhile (fun x => x.isDigit)
      match rest with
      | ']' :: _ => if 2 ≤ run.length then some run.dropLast else digitRunScan cs
      | _ => some run
    else digitRunScan cs

/-! ## The type classifier: `getTypeDetails` -/

/-- Shallow embedding of the relevant part of an ethers.js `ParamType`: the
parameter name, the raw type string and, for tuples, the nested components. -/
structure Param where
  name : String
  type : String
  components : List Param
deriving Repr

/-- Embedding of the `TypeDetails` interface of `src/utils/getTypeDetails.ts`.
`arraySize` is `some 0` for a non-array, `some (-1)` for a dynamic array,
`some n` for a fixed array of size `n`, and `none` for `NaN`. -/
structure TypeDetails where
  fullType : String
  underlyingType : String
  arraySize : Option Int
  typeSize : Option String
deriving Repr, DecidableEq

/-- Embedding of `getTypeDetails` (lines 79–104 of `getTypeDetails.ts`):
the underlying type is the first alphabetic run; the array size comes from the
bracket capture (`'0'` when the regex fails, `'-1'` when the capture is empty)
run through `parseInt`; `typeSize` is the first digit run not followed by `]`,
omitted when that regex fails. -/
def getTypeDetails (paramType : Param) : TypeDetails :=
  let type := paramType.type
  let underlyingType : String := ⟨firstAlphaRun type.data⟩
  let arraySize : Option Int :=
    match lastBracketCapture type.data with
    | none => some 0
    | some [] => some (-1)
    | some ds => parseIntJS ds
  let typeSize : Option String := (digitRunScan type.data).map (fun l => ⟨l⟩)
  { fullType := type, underlyingType := underlyingType,
    arraySize := arraySize, typeSize := typeSize }

/-- Classification of a raw type string, as exercised by the repository's own
test-suite (`getTypeDetails(ethers.utils.ParamType.from({name, type}))`). -/
def classify (rawType : String) : TypeDetails :=
  getTypeDetails { name := "param_name", type := rawType, components := [] }

/-- Modelled from the spec: the normalization ethers.js applies when
constructing a `ParamType` from a raw type string, which is code outside this
repository.  Unsigned and signed integers with no explicit width default to
256 bits (`"uint"` becomes `"uint256"`, `"int"` becomes `"int256"`); the
repository's own test-suite expresses this as
`fullType.replace('int', 'int256')` applied exactly when the underlying type is
`uint`/`int` and no explicit size is present. -/
def normalizeEthersType (s : String) : String :=
  let u : String := ⟨firstAlphaRun s.data⟩
  if (u = "uint" ∨ u = "int") ∧ (digitRunScan s.data).isNone then
    replaceFirst "int" "int256" s
  else s

/-- Classification pipeline including the ethers.js normalization step. -/
def classifyNormalized (rawType : String) : TypeDetails :=
  classify (normalizeEthersType rawType)

-- Behaviour checks against the repository's test-suite expectations.
example : classify "uint256" =
    { fullType := "uint256", underlyingType := "uint",
      arraySize := some 0, typeSize := some "256" } := by decide
example : classify "address[]" =
    { fullType := "address[]", underlyingType := "address",
      arraySize := some (-1), typeSize := none } := by decide
example : classify "bytes32[2]" =
    { fullType := "bytes32[2]", underlyingType := "bytes",
      arraySize := some 2, typeSize := some "32" } := by decide
example : classify "tuple[2]" =
    { fullType := "tuple[2]", underlyingType := "tuple",
      arraySize := some 2, typeSize := none } := by decide
example : classify "tuple[]" =
    { fullType := "tuple[]", underlyingType := "tuple",
      arraySize := some (-1), typeSize := none } := by decide
example : classify "tuple" =
    { fullType := "tuple", underlyingType := "tuple",
      arraySize := some 0, typeSize := none } := by decide
example : normalizeEthersType "uint" = "uint256" := by decide
example : normalizeEthersType "int" = "int256" := by decide
example : normalizeEthersType "uint8" = "uint8" := by decide
example : (classify "bytes[12]").typeSize = some "1" := by decide
example : (classify "bytes[2]").typeSize = none := by decide
example : (classify "uint8[2][3]").arraySize = some 3 := by decide

/-! ## Name synthesis

The case-conversion helpers come from external npm libraries (`snake-case`,
`pascal-case`, `camelcase`); they are modelled here for the alphanumeric
identifiers the generator feeds them. -/

/-- Modelled from the spec: the external `snake-case` library ("table name is
the snake-cased field name"): an upper-case letter is lowered and, except at
the start, preceded by an underscore. -/
def snakeChars : Bool → List Char → List Char
  | _, [] => []
  | first, c :: cs =>
    if c.isUpper then
      (if first then [c.toLower] else ['_', c.toLower]) ++ snakeChars false cs
    else c :: snakeChars false cs

/-- String-level snake-case conversion. -/
def snakeCase (s : String) : String := ⟨snakeChars true s.data⟩

/-- Modelled from the spec: the external `pascal-case` library ("entity name is
the pascal-cased field name"): separators are dropped and the following letter
(and the first letter) upper-cased. -/
def pascalChars : Bool → List Char → List Char
  | _, [] => []
  | up, c :: cs =>
    if c = '_' ∨ c = '-' ∨ c = ' ' then pascalChars true cs
    else (if up then c.toUpper else c) :: pascalChars false cs

/-- String-level pascal-case conversion. -/
def pascalCase (s : String) : String := ⟨pascalChars true s.data⟩

/-- Modelled from the spec: the external `camelcase` library; pascal-case with
the first character lowered. -/
def camelcase (s : String) : String :=
  match (pascalCase s).data with
  | [] => ""
  | c :: cs => ⟨c.toLower :: cs⟩

/-- Embedding of `generateTableName` (lines 72–75 of `entity.generator.ts`). -/
def generateTableName (entityName compressedTopic : String) : String :=
  snakeCase entityName ++ "_" ++ compressedTopic

/-- Embedding of `generateTypeOrmEntityName` (lines 77–80 of
`entity.generator.ts`). -/
def generateTypeOrmEntityName (entityName compressedTopic : String) : String :=
  pascalCase entityName ++ "Entity_" ++ compressedTopic

/-! ## Constants generator (`constants.generator.ts`) -/

/-- Decimal digit count of `n`, embedding `BigNumber.toString().length` in
`generateNumericConstants`. -/
def decimalDigitsLen (n : Nat) : Nat := (Nat.repr n).length

/-- The widths 8, 16, …, 256 iterated by the `while` loop of
`generateNumericConstants` (lines 45–70 of `constants.generator.ts`). -/
def numericWidths : List Nat := (List.range 32).map (fun i => 8 * (i + 1))

/-- Value of the generated `UINT_w_MAX_DIGITS` constant: the decimal length of
`2^w - 1`. -/
def uintMaxDigitsConst (w : Nat) : Nat := decimalDigitsLen (2 ^ w - 1)

/-- Value of the generated `INT_w_MAX_DIGITS` constant: the decimal length of
`2^(w-1) - 1`. -/
def intMaxDigitsConst (w : Nat) : Nat := decimalDigitsLen (2 ^ (w - 1) - 1)

/-- The table of `(w, UINT_w_MAX_DIGITS, INT_w_MAX_DIGITS)` triples produced by
`generateNumericConstants`. -/
def numericConstantsList : List (Nat × Nat × Nat) :=
  numericWidths.map (fun w => (w, uintMaxDigitsConst w, intMaxDigitsConst w))

/-- Value of the generated `BYTES_n_LENGTH` constant (lines 79–88 of
`constants.generator.ts`): `2 + n * 2`. -/
def bytesLengthConstant (n : Nat) : Nat := 2 + n * 2

/-- The table of `(n, BYTES_n_LENGTH)` pairs produced by
`generateBytesConstants` for `n` from 1 to 32. -/
def bytesConstantsList : List (Nat × Nat) :=
  (List.range 32).map (fun i => (i + 1, bytesLengthConstant (i + 1)))

/-! ## Entity generation (`entity.generator.ts`) -/

/-- JavaScript `String.prototype.toUpperCase` on the ASCII identifiers used
here. -/
def toUpperStr (s : String) : String := ⟨s.data.map Char.toUpper⟩

/-- Modelled from the spec: `generateWarning` (its source file
`src/utils/generateWarning.ts` is not among the provided sources).  It produces
the generated-file warning banner, a block comment terminated by `*/` — the
anchor which the import-insertion steps locate via `replace('*/\n', …)`. -/
def generateWarning : String :=
  "/*\n  This file was automatically generated.\n  Do not modify it manually.\n*/\n"

/-- Embedding of `generateWarningAndImports` (lines 29–35 of
`entity.generator.ts`), with the import list verbatim. -/
def generateWarningAndImports : String :=
  generateWarning ++
  "\nimport \x7b Column, Entity, JoinColumn, OneToMany, ManyToOne, OneToOne, PrimaryGeneratedColumn, DeleteDateColumn, Index \x7d from \"typeorm\";\nimport * as constants from \"../constants\";\nimport \x7b BlockchainEventEntity \x7d from \"./BlockchainEventEntity\";\n  \n"

/-- Embedding of `generateChildEntityRelation` (lines 89–113 of
`entity.generator.ts`): the relation declaration emitted into the parent for a
tuple or array field, decorated `@OneToMany` when the field is an array and
`@OneToOne` otherwise. -/
def generateChildEntityRelation (parameterName compressedTopic parentEntityName : String)
    (isArray : Bool) (fieldInfo : TypeDetails) : String :=
  let typeOrmEntityName := generateTypeOrmEntityName parameterName compressedTopic
  "  " ++ (if isArray then "@OneToMany" else "@OneToOne") ++
  "(\n    () => " ++ typeOrmEntityName ++
  ",\n    (" ++ parameterName ++ ": " ++ typeOrmEntityName ++ ") => " ++
  parameterName ++ "." ++ parentEntityName ++
  ",\n    \x7b\n      eager: true,\n      cascade: true,\n    \x7d\n  )\n  @JoinColumn()\n  public " ++
  parameterName ++ ": " ++ typeOrmEntityName ++ (if isArray then "[]" else "") ++
  "; // " ++ fieldInfo.fullType ++ "\n\n"

/-- Embedding of `generateTypeOrmColumn` (lines 122–151 of
`entity.generator.ts`): the inline column declaration for a primitive field.
Only `uint`/`int` get a numeric type, only `bool` a boolean one, everything
else is `varchar`; only `address` gets a `length` bound, and it is always the
32-byte constant. -/
def generateTypeOrmColumn (parameterName underlyingType typeSize : String) : String :=
  let typeString : String :=
    if underlyingType = "uint" ∨ underlyingType = "int" then
      "type: \"numeric\",\n    precision: constants." ++ toUpperStr underlyingType ++
        "_" ++ typeSize ++ "_MAX_DIGITS"
    else if underlyingType = "bool" then "type: \"boolean\""
    else "type: \"varchar\""
  let paramTypeName : String := if underlyingType = "bool" then "boolean" else "string"
  let snakeCaseField := snakeCase parameterName
  "  @Column(\x7b\n    name: \"" ++ snakeCaseField ++
  "\",\n    nullable: false,\n    " ++ typeString ++ ",\n    update: false,\n    " ++
  (if underlyingType = "address" then "length: constants.BYTES_32_LENGTH,\n" else "") ++
  "  \x7d)\n  public " ++ parameterName ++ ": " ++ paramTypeName ++ "; // " ++
  underlyingType ++ "\n\n"

/-- Emission of one field inside the loop of `paramsToTypeOrmColumns`
(lines 162–224 of `entity.generator.ts`): a tuple or array field contributes a
relation declaration, everything else an inline column.  (The loop also
recursively generates and stores the child entity's own file; that file's text
is `generateTypeOrmEntity` below and its storage is file I/O outside this
embedding.) -/
def emitField (param : Param) (compressedTopic typeOrmEntityName : String) : String :=
  let fieldInfo := getTypeDetails param
  let paramName := camelcase param.name
  if fieldInfo.underlyingType = "tuple" ∨ fieldInfo.arraySize ≠ some 0 then
    generateChildEntityRelation paramName compressedTopic typeOrmEntityName
      (fieldInfo.arraySize != some 0) fieldInfo
  else
    generateTypeOrmColumn paramName fieldInfo.underlyingType (fieldInfo.typeSize.getD "")

/-- Component list handed to the recursive child-entity generation
(lines 181–196 of `entity.generator.ts`): a tuple's declared components, or a
single synthetic parameter of the underlying element type for a primitive
array. -/
def childComponents (param : Param) (fieldInfo : TypeDetails) : List Param :=
  if fieldInfo.underlyingType = "tuple" then param.components
  else [{ name := param.name, type := fieldInfo.underlyingType, components := [] }]

/-- Embedding of the parent back-reference block appended by
`paramsToTypeOrmColumns` when a parent entity name is present (lines 226–239
of `entity.generator.ts`). -/
def backRefBlock (parentEntityName compressedTopic typeOrmEntityName : String) : String :=
  let parentEntityClassName := pascalCase parentEntityName ++ "Entity_" ++ compressedTopic
  let parentEntityVariableName := camelcase parentEntityName
  "  @ManyToOne(\n    () => " ++ parentEntityClassName ++
  ",\n    (" ++ parentEntityVariableName ++ ": " ++ parentEntityClassName ++
  ") =>\n      " ++ parentEntityVariableName ++ "." ++ camelcase typeOrmEntityName ++
  "\n  )\n  public " ++ parentEntityVariableName ++ ": " ++ parentEntityClassName ++ ";\n\n"

/-- Embedding of `paramsToTypeOrmColumns` (lines 153–242 of
`entity.generator.ts`): the concatenated per-field emissions, followed by the
`@ManyToOne` back-reference to the parent when one exists. -/
def paramsToTypeOrmColumns (params : List Param)
    (compressedTopic typeOrmEntityName : String) (parentEntityName : Option String) : String :=
  String.join (params.map (fun p => emitField p compressedTopic typeOrmEntityName)) ++
  (match parentEntityName with
   | some p => backRefBlock p compressedTopic typeOrmEntityName
   | none => "")

/-! ### Root-entity import insertion (lines 290–311 of `entity.generator.ts`)

Root entities get `import` statements for every referenced child class spliced
into the end of the warning comment.  The class-name tokens are found with the
regular expressions `/[^\s]+Entity_[^\s]+/` and the global
`/[^\s]+Entity_[^\s|^;|^,|^)|^[]+/g`; both operate inside maximal
whitespace-free runs, with the greedy leading `[^\s]+` settling on the last
`Entity_` occurrence of the run that leaves at least one admissible character
after it. -/

/-- Character class `[^\s|^;|^,|^)|^[]` of the token regex. -/
def isClass2 (c : Char) : Bool :=
  !c.isWhitespace && !(['|', '^', ';', ',', ')', '['].contains c)

/-- Maximal whitespace-free runs of a character list. -/
def runs (s : List Char) : List (List Char) :=
  (s.splitOnP (fun c => c.isWhitespace)).filter (fun r => r ≠ [])

/-- The pattern `Entity_` searched for inside runs. -/
def entityPat : List Char := ['E', 'n', 't', 'i', 't', 'y', '_']

/-- One token match of `/[^\s]+Entity_[^\s|^;|^,|^)|^[]+/` inside a run:
the last position `j ≥ 1` where `Entity_` occurs followed by an admissible
character wins; the token extends through the maximal admissible-character run
after it.  Returns the token and the unscanned remainder of the run. -/
def findTokenInRun (R : List Char) : Option (List Char × List Char) :=
  let js := (List.range R.length).filter
    (fun j => decide (1 ≤ j) && headMatch entityPat (R.drop j) &&
      (match (R.drop (j + 7)).head? with
       | some c => isClass2 c
       | none => false))
  match js.getLast? with
  | none => none
  | some j =>
    let tail := R.drop (j + 7)
    some (R.take (j + 7) ++ tail.takeWhile isClass2, tail.dropWhile isClass2)

/-- All token matches inside one run, resuming after each match. -/
def tokensInRunF : Nat → List Char → List (List Char)
  | 0, _ => []
  | fuel + 1, R =>
    match findTokenInRun R with
    | none => []
    | some (tok, rem) => tok :: tokensInRunF fuel rem

/-- All matches of the global token regex in `s`
(`output.matchAll(/[^\s]+Entity_[^\s|^;|^,|^)|^[]+/g)`). -/
def scanTokens (s : List Char) : List (List Char) :=
  (runs s).flatMap (fun R => tokensInRunF R.length R)

/-- First match of `/[^\s]+Entity_[^\s]+/`: the first whitespace-free run
containing `Entity_` at a positive offset with at least one character after
it; the greedy tails make the whole run the match. -/
def firstHashedName (s : List Char) : Option (List Char) :=
  (runs s).find? (fun R =>
    (List.range R.length).any (fun j =>
      decide (1 ≤ j) && headMatch entityPat (R.drop j) && decide (R.drop (j + 7) ≠ [])))

/-- Duplicate removal keeping first occurrences, the behaviour of insertion
into a JavaScript `Set`. -/
def firstDedup (l : List (List Char)) : List (List Char) :=
  l.foldl (fun acc t => if t ∈ acc then acc else acc ++ [t]) []

/-- Embedding of the root-entity import insertion: every referenced entity
class except the one being declared gets an import line, spliced in at the
closing `*/` of the warning comment. -/
def insertRootImports (output : String) : String :=
  let hashed := (firstHashedName output.data).getD []
  let uniq := (firstDedup (scanTokens output.data)).filter (fun t => t ≠ hashed)
  let stmts := uniq.foldl
    (fun acc e =>
      acc ++ "import \x7b " ++ (⟨e⟩ : String) ++ " \x7d from \"./" ++ (⟨e⟩ : String) ++ "\";\n")
    ("*/\n" : String)
  replaceFirst "*/\n" stmts output

/-! ### `generateTypeOrmEntity` (lines 251–331 of `entity.generator.ts`) -/

/-- The pattern `ManyToOne` targeted by the final rewriting step. -/
def manyToOnePat : List Char := ['M', 'a', 'n', 'y', 'T', 'o', 'O', 'n', 'e']

/-- Embedding of the final rewriting step of `generateTypeOrmEntity`
(lines 316–328): when the entity is not an array child and `ManyToOne` occurs
more than once in the text, the last occurrence — the parent back-reference's
decorator, the import list accounting for the other — is replaced by
`OneToOne`. -/
def applyBackrefRewrite (isArray : Bool) (output : String) : String :=
  if isArray then output
  else
    match (subIdxs manyToOnePat output.data).getLast? with
    | none => output
    | some i =>
      if 1 < (subIdxs manyToOnePat output.data).length then
        ⟨output.data.take i ++ "OneToOne".data ++ output.data.drop (i + 9)⟩
      else output

/-- Entity text before the final `ManyToOne` rewrite: warning and imports,
class declaration (roots extend `BlockchainEventEntity`), the auto-increment
id for children, the field emissions with back-reference, the root import
insertion, and the closing brace. -/
def entityTextRaw (entityName compressedTopic : String) (inputs : List Param)
    (parentEntityName : Option String) : String :=
  let tableName := generateTableName entityName compressedTopic
  let typeOrmEntityName := generateTypeOrmEntityName entityName compressedTopic
  let camelCaseEntityName := camelcase entityName
  let body :=
    generateWarningAndImports ++
    "@Entity(\x7b name: \"" ++ tableName ++ "\" \x7d)\nexport class " ++ typeOrmEntityName ++
    " " ++ (if parentEntityName.isNone then "extends BlockchainEventEntity " else "") ++
    "\x7b\n" ++
    (if parentEntityName.isSome then
      "  @PrimaryGeneratedColumn(\"increment\")\n  public id: string;\n\n"
     else "") ++
    paramsToTypeOrmColumns inputs compressedTopic camelCaseEntityName parentEntityName
  (if parentEntityName.isNone then insertRootImports body else body) ++ "\x7d\n"

/-- Embedding of `generateTypeOrmEntity`: the raw text followed by the
back-reference rewrite.  `isArray` is the optional source parameter, `false`
standing for the `undefined` of root calls. -/
def generateTypeOrmEntity (entityName compressedTopic : String) (inputs : List Param)
    (parentEntityName : Option String) (isArray : Bool) : String :=
  applyBackrefRewrite isArray (entityTextRaw entityName compressedTopic inputs parentEntityName)

/-! ## Migration generation (`migration.generator.ts`)

`generateSchemaAwareMigrations` rewrites the engine-produced statements with
three global regex replacements and prepends a schema-creation preamble.  The
replacements are embedded as an explicit scanner: at each position the first
applicable rule (pattern literal, then a non-empty quote-free capture up to the
next `"`) fires, emission resumes after the consumed text. -/

/-- One replacement rule: the literal pattern before the capture, and the
replacement text laid around the capture. -/
structure RewriteRule where
  pat : List Char
  pre : List Char
  post : List Char

/-- Split at the first `"`: the quote-free part before it and the remainder
after it. -/
def splitAtQuote : List Char → Option (List Char × List Char)
  | [] => none
  | c :: cs =>
    if c = '"' then some ([], cs)
    else
      match splitAtQuote cs with
      | some (a, b) => some (c :: a, b)
      | none => none

/-- Attempt one rule at the head of `s`: the pattern must match and a
non-empty capture must be closed by a `"`. -/
def tryRule (r : RewriteRule) (s : List Char) : Option (List Char × List Char) :=
  if headMatch r.pat s then
    match splitAtQuote (s.drop r.pat.length) with
    | some (name, rest) =>
      if name = [] then none else some (r.pre ++ name ++ r.post, rest)
    | none => none
  else none

/-- First applicable rule at the head of `s`. -/
def tryRules : List RewriteRule → List Char → Option (List Char × List Char)
  | [], _ => none
  | r :: rs, s =>
    match tryRule r s with
    | some x => some x
    | none => tryRules rs s

/-- The global-replacement scanner, fuelled by the input length: on a match,
emit the replacement and resume after the consumed text (replaced text is not
rescanned, as with JavaScript global `replace`); otherwise advance one
character. -/
def scanF (rules : List RewriteRule) : Nat → List Char → List Char
  | 0, s => s
  | _ + 1, [] => []
  | fuel + 1, c :: cs =>
    match tryRules rules (c :: cs) with
    | some (out, rest) => out ++ scanF rules fuel rest
    | none => c :: scanF rules fuel cs

/-- String-level scanner entry point. -/
def runScan (rules : List RewriteRule) (s : String) : String :=
  ⟨scanF rules s.data.length s.data⟩

/-- Rule for `q.replace(/CREATE TABLE "([^"]+)"/g, `CREATE TABLE
"schemaName"."$1"`)`. -/
def createTableRules (schemaName : String) : List RewriteRule :=
  [⟨"CREATE TABLE \"".data, ("CREATE TABLE \"" ++ schemaName ++ "\".\"").data, "\"".data⟩]

/-- Rules for `q.replace(/ALTER TABLE( ONLY)? "([^"]+)"/g, `ALTER TABLE$1
"schemaName"."$2"`)`; the optional greedy ` ONLY` group is tried first, and the
two patterns are mutually exclusive at any position. -/
def alterTableRules (schemaName : String) : List RewriteRule :=
  [⟨"ALTER TABLE ONLY \"".data, ("ALTER TABLE ONLY \"" ++ schemaName ++ "\".\"").data, "\"".data⟩,
   ⟨"ALTER TABLE \"".data, ("ALTER TABLE \"" ++ schemaName ++ "\".\"").data, "\"".data⟩]

/-- Rule for `q.replace(/DROP TABLE "([^"]+)"/g, `DROP TABLE IF EXISTS
"schemaName"."$1" CASCADE`)`. -/
def dropTableRules (schemaName : String) : List RewriteRule :=
  [⟨"DROP TABLE \"".data, ("DROP TABLE IF EXISTS \"" ++ schemaName ++ "\".\"").data,
    "\" CASCADE".data⟩]

/-- Rewrite of one forward (`up`) query: the `CREATE TABLE` replacement
followed by the `ALTER TABLE` replacement (lines 63–77 of
`migration.generator.ts`). -/
def rewriteUpQuery (schemaName q : String) : String :=
  runScan (alterTableRules schemaName) (runScan (createTableRules schemaName) q)

/-- Rewrite of one reverse (`down`) query: the `DROP TABLE` replacement
(lines 80–88 of `migration.generator.ts`). -/
def rewriteDownQuery (schemaName q : String) : String :=
  runScan (dropTableRules schemaName) q

/-- The statement list of the generated migration's `up` method: the
`CREATE SCHEMA IF NOT EXISTS` preamble followed by the rewritten forward
queries (lines 99–106 of `migration.generator.ts`). -/
def migrationUpStatements (schemaName : String) (upQueries : List String) : List String :=
  ("CREATE SCHEMA IF NOT EXISTS \"" ++ schemaName ++ "\"") ::
    upQueries.map (rewriteUpQuery schemaName)

/-- The statement list of the generated migration's `down` method: the
rewritten reverse queries (lines 108–112 of `migration.generator.ts`). -/
def migrationDownStatements (schemaName : String) (downQueries : List String) : List String :=
  downQueries.map (rewriteDownQuery schemaName)

-- Behaviour checks for the migration scanner.
example : rewriteUpQuery "app" "CREATE TABLE \"orders\" (\"id\" SERIAL)" =
    "CREATE TABLE \"app\".\"orders\" (\"id\" SERIAL)" := by decide
example : rewriteUpQuery "app" "ALTER TABLE \"orders\" ADD CONSTRAINT \"fk\" FOREIGN KEY" =
    "ALTER TABLE \"app\".\"orders\" ADD CONSTRAINT \"fk\" FOREIGN KEY" := by decide
example : rewriteUpQuery "app" "ALTER TABLE ONLY \"orders\" ADD X" =
    "ALTER TABLE ONLY \"app\".\"orders\" ADD X" := by decide
example : rewriteDownQuery "app" "DROP TABLE \"orders\"" =
    "DROP TABLE IF EXISTS \"app\".\"orders\" CASCADE" := by decide

/-! ## Helper lemmas -/

theorem lastIdx_append (c : Char) (xs ys : List Char) :
    lastIdx c (xs ++ ys) =
      match lastIdx c ys with
      | some j => some (xs.length + j)
      | none => lastIdx c xs := by
  induction xs with
  | nil => cases h : lastIdx c ys <;> simp [h, lastIdx]
  | cons x xs ih =>
    rw [List.cons_append]
    show (match lastIdx c (xs ++ ys) with
          | some j => some (j + 1)
          | none => if x = c then some 0 else none) = _
    rw [ih]
    cases h : lastIdx c ys with
    | none => simp [lastIdx]
    | some j => simp [List.length_cons]; omega

theorem lastIdx_not_mem {c : Char} {xs : List Char} (h : c ∉ xs) : lastIdx c xs = none := by
  induction xs with
  | nil => rfl
  | cons x xs ih =>
    have hx : ¬(x = c) := fun e => h (e ▸ List.mem_cons_self x xs)
    have hxs : c ∉ xs := fun m => h (List.mem_cons_of_mem x m)
    show (match lastIdx c xs with
          | some j => some (j + 1)
          | none => if x = c then some 0 else none) = none
    rw [ih hxs, if_neg hx]

theorem takeWhile_all_append {p : Char → Bool} {xs : List Char} (y : Char) (ys : List Char)
    (h : ∀ x ∈ xs, p x = true) (hy : p y = false) :
    (xs ++ y :: ys).takeWhile p = xs := by
  induction xs with
  | nil => simp [List.takeWhile_cons, hy]
  | cons x xs ih =>
    have hx := h x (List.mem_cons_self x xs)
    simp [List.takeWhile_cons, hx, ih (fun a ha => h a (List.mem_cons_of_mem x ha))]

theorem dropWhile_all_append {p : Char → Bool} {xs : List Char} (y : Char) (ys : List Char)
    (h : ∀ x ∈ xs, p x = true) (hy : p y = false) :
    (xs ++ y :: ys).dropWhile p = y :: ys := by
  induction xs with
  | nil => simp [List.dropWhile_cons, hy]
  | cons x xs ih =>
    have hx := h x (List.mem_cons_self x xs)
    simp [List.dropWhile_cons, hx, ih (fun a ha => h a (List.mem_cons_of_mem x ha))]

theorem digitRunScan_nodigit_append {xs : List Char} (ys : List Char)
    (h : ∀ x ∈ xs, x.isDigit = false) :
    digitRunScan (xs ++ ys) = digitRunScan ys := by
  induction xs with
  | nil => rfl
  | cons x xs ih =>
    have hx : x.isDigit = false := h x (List.mem_cons_self x xs)
    rw [List.cons_append]
    show (if x.isDigit then _ else digitRunScan (xs ++ ys)) = digitRunScan ys
    rw [hx, if_neg (by simp), ih (fun a ha => h a (List.mem_cons_of_mem x ha))]

/-- Bracket capture on a string ending in `[D]` with `D` bracket-free: the
greedy regex takes the last bracket group. -/
theorem lastBracketCapture_shape (Q D : List Char) (hD : '[' ∉ D) :
    lastBracketCapture (Q ++ '[' :: D ++ [']']) = some D := by
  have e : Q ++ '[' :: D ++ [']'] = (Q ++ '[' :: D) ++ [']'] := by
    simp [List.append_assoc]
  have hone : lastIdx ']' [']'] = some 0 := by decide
  have hj : lastIdx ']' ((Q ++ '[' :: D) ++ [']']) = some ((Q ++ '[' :: D).length) := by
    rw [lastIdx_append, hone]; simp
  have htake : ((Q ++ '[' :: D) ++ [']']).take ((Q ++ '[' :: D).length) = Q ++ '[' :: D :=
    List.take_left _ _
  have hmid : lastIdx '[' ('[' :: D) = some 0 := by
    show (match lastIdx '[' D with
          | some j => some (j + 1)
          | none => if '[' = '[' then some 0 else none) = some 0
    rw [lastIdx_not_mem hD]; simp
  have hi : lastIdx '[' (Q ++ '[' :: D) = some Q.length := by
    rw [lastIdx_append, hmid]; simp
  have hdrop : (Q ++ '[' :: D).drop (Q.length + 1) = D := by
    rw [← List.drop_drop, List.drop_left, List.drop_one, List.tail_cons]
  rw [e]
  simp only [lastBracketCapture, hj, htake, hi, hdrop]

/-- Take-while stops at the first failing element, so a failing separator cuts
an appended tail off entirely. -/
theorem takeWhile_append_stop {p : Char → Bool} (xs : List Char) {y : Char} (ys : List Char)
    (hy : p y = false) :
    (xs ++ y :: ys).takeWhile p = xs.takeWhile p := by
  induction xs with
  | nil => simp [List.takeWhile_cons, hy]
  | cons x xs ih =>
    cases hx : p x with
    | true => simp [List.takeWhile_cons, hx, ih]
    | false => simp [List.takeWhile_cons, hx]

/-- The first alphabetic run is unaffected by appending `'[' :: ys`, provided
the list contains at least one letter. -/
theorem firstAlphaRun_append_bracket (B ys : List Char) (h : ∃ c ∈ B, c.isAlpha = true) :
    firstAlphaRun (B ++ '[' :: ys) = firstAlphaRun B := by
  induction B with
  | nil => simp at h
  | cons b B' ih =>
    cases hb : b.isAlpha with
    | true =>
      unfold firstAlphaRun
      rw [List.cons_append, List.dropWhile_cons, List.dropWhile_cons, hb]
      simp only [Bool.not_true, Bool.false_eq_true, if_false]
      rw [List.takeWhile_cons, List.takeWhile_cons, hb]
      simp only [if_true, if_pos]
      rw [takeWhile_append_stop B' ys (by decide)]
    | false =>
      have h' : ∃ c ∈ B', c.isAlpha = true := by
        rcases h with ⟨c, hc, hca⟩
        rcases List.mem_cons.mp hc with rfl | hc'
        · rw [hb] at hca; exact absurd hca (by simp)
        · exact ⟨c, hc', hca⟩
      unfold firstAlphaRun
      rw [List.cons_append, List.dropWhile_cons, List.dropWhile_cons, hb]
      simp only [Bool.not_false, if_true]
      exact ih h'

/-- Unfolding equation of `digitRunScan` on a non-empty list. -/
theorem digitRunScan_cons (c : Char) (cs : List Char) :
    digitRunScan (c :: cs) =
      if c.isDigit then
        match cs.dropWhile (fun x => x.isDigit) with
        | ']' :: _ =>
          if 2 ≤ (c :: cs.takeWhile (fun x => x.isDigit)).length then
            some (c :: cs.takeWhile (fun x => x.isDigit)).dropLast
          else digitRunScan cs
        | _ => some (c :: cs.takeWhile (fun x => x.isDigit))
      else digitRunScan cs := rfl

/-! ## Claim C2: array-of-array classification -/

/-- Claim C2 (counterexample).  The claim says a raw type string with more
than one bracket group is classified "identically to a single dynamic array of
the base element type, never to a fixed array sized by a later bracket group";
but classifying `"uint8[2][3]"` yields the **fixed** array size 3, taken from
the later bracket group, not the dynamic size −1 of `"uint8[]"`. -/
theorem c2_counterexample :
    (classify "uint8[2][3]").arraySize = some 3 ∧
    (classify "uint8[2][3]").arraySize ≠ some (-1) ∧
    (classify "uint8[2][3]").arraySize ≠ (classify "uint8[]").arraySize := by decide

/-- Claim C2 (amended): the classifier captures only the **last** bracket
group: for a type string `base[d1][d2]` (where `base` names an element type
and `d1`, `d2` are digit groups), the classification is a single array of the
base element type (the leading alphabetic run of `base`) whose cardinality
comes from the final bracket group — dynamic when it is empty, fixed of that
size otherwise — and never from an earlier group. -/
theorem c2_last_bracket_group (base d1 d2 : String)
    (hb0 : ∃ c ∈ base.data, c.isAlpha = true)
    (_hd1 : ∀ c ∈ d1.data, c.isDigit = true) (hd2 : ∀ c ∈ d2.data, c.isDigit = true) :
    (classify (base ++ "[" ++ d1 ++ "][" ++ d2 ++ "]")).arraySize =
      (if d2.data = [] then some (-1) else parseIntJS d2.data) ∧
    (classify (base ++ "[" ++ d1 ++ "][" ++ d2 ++ "]")).underlyingType =
      (⟨firstAlphaRun base.data⟩ : String) := by
  have hD2 : '[' ∉ d2.data := fun m => absurd (hd2 _ m) (by decide)
  have e1 : ("[" : String).data = ['['] := by decide
  have e2 : ("][" : String).data = [']', '['] := by decide
  have e3 : ("]" : String).data = [']'] := by decide
  have hdata : (base ++ "[" ++ d1 ++ "][" ++ d2 ++ "]").data
      = (base.data ++ '[' :: (d1.data ++ [']'])) ++ '[' :: d2.data ++ [']'] := by
    simp [String.data_append, e1, e2, e3]
  constructor
  · simp only [classify, getTypeDetails]
    rw [hdata, lastBracketCapture_shape _ _ hD2]
    cases h2 : d2.data with
    | nil => simp
    | cons a l => simp
  · simp only [classify, getTypeDetails]
    have hdata2 : (base ++ "[" ++ d1 ++ "][" ++ d2 ++ "]").data
        = base.data ++ '[' :: ((d1.data ++ [']']) ++ '[' :: d2.data ++ [']']) := by
      rw [hdata]; simp
    rw [hdata2, firstAlphaRun_append_bracket base.data _ hb0]

/-- Claim C2 (amended, witness): instantiation at `"uint8[2][3]"`. -/
theorem c2_last_bracket_group_witness :
    (classify ("uint8" ++ "[" ++ "2" ++ "][" ++ "3" ++ "]")).arraySize = parseIntJS "3".data ∧
    (classify ("uint8" ++ "[" ++ "2" ++ "][" ++ "3" ++ "]")).underlyingType =
      (⟨firstAlphaRun "uint8".data⟩ : String) := by
  have h := c2_last_bracket_group "uint8" "2" "3" (by decide) (by decide) (by decide)
  exact ⟨h.1.trans (if_neg (by decide)), h.2⟩

/-! ## Claim C3: default integer widths -/

/-- Claim C3.  Classifying the raw type string `"uint"` yields bit width 256,
classifying `"int"` yields 256 (unsized integers default to 256 via the
ethers.js normalization, modelled from the spec and pinned by the repository's
test-suite), and classifying `"uint8"` yields width 8. -/
theorem c3_default_widths :
    (classifyNormalized "uint").typeSize = some "256" ∧
    (classifyNormalized "int").typeSize = some "256" ∧
    (classifyNormalized "uint8").typeSize = some "8" ∧
    (classifyNormalized "uint").underlyingType = "uint" ∧
    (classifyNormalized "int").underlyingType = "int" := by decide

/-! ## Claim C4: no failure on unsupported grammar -/

set_option maxRecDepth 10000

/-- Claim C4 (code behaviour at the failing input).  The spec requires an
`UnsupportedType` error failing the whole event's decomposition when a raw
type string such as the array-of-array `"uint256[][]"` falls outside the
supported grammar; the code instead classifies it successfully (as a dynamic
array of `uint`) and emits an ordinary `@OneToMany` relation, never failing —
even though the loop's own comment says "make sure its there at most once. if
more than once throw error". -/
theorem c4_no_failure_on_array_of_array :
    classify "uint256[][]" =
      { fullType := "uint256[][]", underlyingType := "uint",
        arraySize := some (-1), typeSize := some "256" } ∧
    emitField { name := "values", type := "uint256[][]", components := [] } "ab12" "testEvent" =
      generateChildEntityRelation "values" "ab12" "testEvent" true (classify "uint256[][]") ∧
    textStartsWith
      (emitField { name := "values", type := "uint256[][]", components := [] } "ab12" "testEvent")
      "  @OneToMany(" = true := by decide

/-! ## Claim C10: size-regex backtracking into the bracket group -/

/-- Claim C10.  For a raw type whose base carries no digits and which has a
fixed-array suffix: with a multi-digit array size the `[0-9]+(?!\])` regex
backtracks into the bracket group and `typeSize` is the array-size digits with
the last digit removed; with a single-digit size there is no match and
`typeSize` is absent. -/
theorem c10_backtracked_type_size (base ds : String)
    (hb : ∀ c ∈ base.data, c.isDigit = false)
    (hd0 : ds.data ≠ []) (hd : ∀ c ∈ ds.data, c.isDigit = true) :
    (classify (base ++ "[" ++ ds ++ "]")).typeSize =
      if 2 ≤ ds.data.length then some (⟨ds.data.dropLast⟩ : String) else none := by
  have e1 : ("[" : String).data = ['['] := by decide
  have e3 : ("]" : String).data = [']'] := by decide
  have hdata : (base ++ "[" ++ ds ++ "]").data
      = (base.data ++ ['[']) ++ (ds.data ++ [']']) := by
    simp [String.data_append, e1, e3]
  have hnod : ∀ x ∈ base.data ++ ['['], x.isDigit = false := by
    intro x hx
    rcases List.mem_append.mp hx with h | h
    · exact hb x h
    · simp only [List.mem_singleton] at h; subst h; decide
  simp only [classify, getTypeDetails]
  rw [hdata, digitRunScan_nodigit_append _ hnod]
  cases hds : ds.data with
  | nil => exact absurd hds hd0
  | cons d D =>
    have hdd : d.isDigit = true := hd d (by rw [hds]; exact List.mem_cons_self d D)
    have hD : ∀ x ∈ D, x.isDigit = true := fun x hx =>
      hd x (by rw [hds]; exact List.mem_cons_of_mem d hx)
    have htw : (D ++ [']']).takeWhile (fun x => x.isDigit) = D :=
      takeWhile_all_append ']' [] hD (by decide)
    have hdw : (D ++ [']']).dropWhile (fun x => x.isDigit) = [']'] :=
      dropWhile_all_append ']' [] hD (by decide)
    rw [List.cons_append, digitRunScan_cons, hdd, if_pos rfl, htw, hdw]
    cases D with
    | nil =>
      have hnone : digitRunScan [']'] = none := by decide
      simp [hnone]
    | cons a l =>
      have hlen : 2 ≤ (d :: a :: l).length := by simp
      rw [if_pos hlen]
      simp [hlen]

/-- Claim C10 (witness): `"bytes[12]"` gets `typeSize = "1"`, while
`"bytes[2]"` gets none. -/
theorem c10_backtracked_type_size_witness :
    (classify ("bytes" ++ "[" ++ "12" ++ "]")).typeSize = some "1" ∧
    (classify ("bytes" ++ "[" ++ "2" ++ "]")).typeSize = none := by
  have h1 := c10_backtracked_type_size "bytes" "12" (by decide) (by decide) (by decide)
  have h2 := c10_backtracked_type_size "bytes" "2" (by decide) (by decide) (by decide)
  exact ⟨h1.trans (by decide), h2.trans (by decide)⟩

/-! ## Prefix-matching lemmas for the emitted declaration texts -/

theorem headMatch_append_true {p a : List Char} (b : List Char) (h : headMatch p a = true) :
    headMatch p (a ++ b) = true := by
  induction p generalizing a with
  | nil => rfl
  | cons x ps ih =>
    cases a with
    | nil => simp [headMatch] at h
    | cons c cs =>
      simp only [headMatch, Bool.and_eq_true] at h
      simp only [List.cons_append, headMatch, Bool.and_eq_true]
      exact ⟨h.1, ih h.2⟩

theorem headMatch_common (p q s : List Char) (hp : headMatch p s = true)
    (hq : headMatch q s = true) (hlen : p.length ≤ q.length) : headMatch p q = true := by
  induction p generalizing q s with
  | nil => rfl
  | cons x ps ih =>
    cases s with
    | nil => simp [headMatch] at hp
    | cons c cs =>
      cases q with
      | nil => simp at hlen
      | cons y qs =>
        simp only [headMatch, Bool.and_eq_true, beq_iff_eq] at hp hq ⊢
        refine ⟨hp.1.trans hq.1.symm, ih qs cs hp.2 hq.2 (by simpa using hlen)⟩

/-- Appending on the right preserves a positive prefix test. -/
theorem textStartsWith_true_of (a b pat : String) (h : textStartsWith a pat = true) :
    textStartsWith (a ++ b) pat = true := by
  simp only [textStartsWith, String.data_append] at h ⊢
  exact headMatch_append_true _ h

/-- A string starting with `q` cannot also start with a `p` that is at most as
long as `q` but is not a prefix of `q`. -/
theorem textStartsWith_excl (s p q : String) (hq : textStartsWith s q = true)
    (hlen : p.data.length ≤ q.data.length) (hpq : headMatch p.data q.data = false) :
    textStartsWith s p = false := by
  cases hp : textStartsWith s p with
  | false => rfl
  | true =>
    have := headMatch_common p.data q.data s.data
      (by simpa [textStartsWith] using hp) (by simpa [textStartsWith] using hq) hlen
    rw [hpq] at this
    exact absurd this (by simp)

/-- Decorator discipline of the relation text: it starts with `@OneToMany`
exactly for arrays, with `@OneToOne` exactly for non-arrays, and never with
`@Column`. -/
theorem relation_decorators (pn topic parent : String) (isArray : Bool) (d : TypeDetails) :
    textStartsWith (generateChildEntityRelation pn topic parent isArray d)
      "  @OneToMany(" = isArray ∧
    textStartsWith (generateChildEntityRelation pn topic parent isArray d)
      "  @OneToOne(" = !isArray ∧
    textStartsWith (generateChildEntityRelation pn topic parent isArray d)
      "  @Column(" = false := by
  cases isArray with
  | true =>
    have hpos : textStartsWith (generateChildEntityRelation pn topic parent true d)
        "  @OneToMany(" = true := by
      simp only [generateChildEntityRelation, if_pos]
      rw [show ("  " : String) ++ "@OneToMany" ++ "(\n    () => "
            = "  @OneToMany(\n    () => " from by decide]
      repeat apply textStartsWith_true_of
      decide
    refine ⟨hpos, ?_, ?_⟩
    · exact textStartsWith_excl _ _ _ hpos (by decide) (by decide)
    · exact textStartsWith_excl _ _ _ hpos (by decide) (by decide)
  | false =>
    have hpos : textStartsWith (generateChildEntityRelation pn topic parent false d)
        "  @OneToOne(" = true := by
      simp only [generateChildEntityRelation, Bool.false_eq_true, if_false]
      rw [show ("  " : String) ++ "@OneToOne" ++ "(\n    () => "
            = "  @OneToOne(\n    () => " from by decide]
      repeat apply textStartsWith_true_of
      decide
    refine ⟨?_, hpos, ?_⟩
    · cases hp : textStartsWith (generateChildEntityRelation pn topic parent false d)
          "  @OneToMany(" with
      | false => rfl
      | true =>
        have := headMatch_common "  @OneToOne(".data "  @OneToMany(".data
          (generateChildEntityRelation pn topic parent false d).data
          (by simpa [textStartsWith] using hpos) (by simpa [textStartsWith] using hp)
          (by decide)
        exact absurd this (by decide)
    · exact textStartsWith_excl _ _ _ hpos (by decide) (by decide)

/-- Decorator discipline of the column text: it starts with `@Column` and with
neither relation decorator. -/
theorem column_decorators (pn ut ts : String) :
    textStartsWith (generateTypeOrmColumn pn ut ts) "  @Column(" = true ∧
    textStartsWith (generateTypeOrmColumn pn ut ts) "  @OneToMany(" = false ∧
    textStartsWith (generateTypeOrmColumn pn ut ts) "  @OneToOne(" = false := by
  have hpos : textStartsWith (generateTypeOrmColumn pn ut ts) "  @Column(" = true := by
    simp only [generateTypeOrmColumn]
    repeat apply textStartsWith_true_of
    decide
  refine ⟨hpos, ?_, ?_⟩
  · cases hp : textStartsWith (generateTypeOrmColumn pn ut ts) "  @OneToMany(" with
    | false => rfl
    | true =>
      have := headMatch_common "  @Column(".data "  @OneToMany(".data
        (generateTypeOrmColumn pn ut ts).data
        (by simpa [textStartsWith] using hpos) (by simpa [textStartsWith] using hp)
        (by decide)
      exact absurd this (by decide)
  · cases hp : textStartsWith (generateTypeOrmColumn pn ut ts) "  @OneToOne(" with
    | false => rfl
    | true =>
      have := headMatch_common "  @Column(".data "  @OneToOne(".data
        (generateTypeOrmColumn pn ut ts).data
        (by simpa [textStartsWith] using hpos) (by simpa [textStartsWith] using hp)
        (by decide)
      exact absurd this (by decide)

theorem headMatch_self_append (p x : List Char) : headMatch p (p ++ x) = true := by
  induction p with
  | nil => rfl
  | cons a ps ih => simp [headMatch, ih]

theorem headMatch_cancel (x p s : List Char) : headMatch (x ++ p) (x ++ s) = headMatch p s := by
  induction x with
  | nil => rfl
  | cons a xs ih => simp [headMatch, ih]

/-! ## Claim C1: relation versus column dispatch -/

/-- Claim C1.  For every event field: when its classified base kind is `tuple`
or its array cardinality is not "none" (`arraySize ≠ 0`), the builder emits a
relation — decorated `@OneToMany` exactly when the field is an array (dynamic
or fixed) and `@OneToOne` otherwise (a non-array tuple) — and no column; all
other fields become inline `@Column` declarations and no relation. -/
theorem c1_relation_vs_column (param : Param) (topic tn : String) :
    ((getTypeDetails param).underlyingType = "tuple" ∨ (getTypeDetails param).arraySize ≠ some 0 →
      emitField param topic tn =
        generateChildEntityRelation (camelcase param.name) topic tn
          ((getTypeDetails param).arraySize != some 0) (getTypeDetails param) ∧
      (textStartsWith (emitField param topic tn) "  @OneToMany(" = true ↔
        (getTypeDetails param).arraySize ≠ some 0) ∧
      (textStartsWith (emitField param topic tn) "  @OneToOne(" = true ↔
        (getTypeDetails param).arraySize = some 0) ∧
      textStartsWith (emitField param topic tn) "  @Column(" = false) ∧
    (¬((getTypeDetails param).underlyingType = "tuple" ∨
        (getTypeDetails param).arraySize ≠ some 0) →
      emitField param topic tn =
        generateTypeOrmColumn (camelcase param.name) (getTypeDetails param).underlyingType
          ((getTypeDetails param).typeSize.getD "") ∧
      textStartsWith (emitField param topic tn) "  @Column(" = true ∧
      textStartsWith (emitField param topic tn) "  @OneToMany(" = false ∧
      textStartsWith (emitField param topic tn) "  @OneToOne(" = false) := by
  constructor
  · intro hcond
    have he : emitField param topic tn =
        generateChildEntityRelation (camelcase param.name) topic tn
          ((getTypeDetails param).arraySize != some 0) (getTypeDetails param) := by
      simp only [emitField, if_pos hcond]
    have hdec := relation_decorators (camelcase param.name) topic tn
      ((getTypeDetails param).arraySize != some 0) (getTypeDetails param)
    rw [← he] at hdec
    refine ⟨he, ?_, ?_, hdec.2.2⟩
    · rw [hdec.1]; simp [bne_iff_ne]
    · rw [hdec.2.1]; simp [bne_iff_ne]
  · intro hcond
    have he : emitField param topic tn =
        generateTypeOrmColumn (camelcase param.name) (getTypeDetails param).underlyingType
          ((getTypeDetails param).typeSize.getD "") := by
      simp only [emitField, if_neg hcond]
    have hdec := column_decorators (camelcase param.name)
      (getTypeDetails param).underlyingType ((getTypeDetails param).typeSize.getD "")
    rw [← he] at hdec
    exact ⟨he, hdec.1, hdec.2.1, hdec.2.2⟩

/-- Claim C1 (witness): a tuple field becomes a relation, a `uint256` field a
column. -/
theorem c1_relation_vs_column_witness :
    emitField ⟨"position", "tuple", []⟩ "ab12" "myEvent" =
      generateChildEntityRelation (camelcase "position") "ab12" "myEvent"
        ((getTypeDetails ⟨"position", "tuple", []⟩).arraySize != some 0)
        (getTypeDetails ⟨"position", "tuple", []⟩) ∧
    textStartsWith (emitField ⟨"amount", "uint256", []⟩ "ab12" "myEvent") "  @Column(" = true :=
  ⟨((c1_relation_vs_column ⟨"position", "tuple", []⟩ "ab12" "myEvent").1 (by decide)).1,
   ((c1_relation_vs_column ⟨"amount", "uint256", []⟩ "ab12" "myEvent").2 (by decide)).2.1⟩

/-! ## Claim C5: column mapping of string-like kinds -/

/-- Claim C5 (counterexample).  The claim says address and fixed-bytes columns
bound the maximum length to `2 + 2×byteLength` hex characters (42 for a
20-byte address); but the generated address column always references the
32-byte constant `BYTES_32_LENGTH = 66 ≠ 42`, and a fixed-bytes column (here
`bytes8`) carries no `length` bound at all. -/
theorem c5_counterexample :
    generateTypeOrmColumn "sender" "address" "" =
      "  @Column(\x7b\n    name: \"sender\",\n    nullable: false,\n    type: \"varchar\",\n    update: false,\n    length: constants.BYTES_32_LENGTH,\n  \x7d)\n  public sender: string; // address\n\n" ∧
    bytesLengthConstant 32 = 66 ∧
    bytesLengthConstant 20 = 42 ∧
    (66 : Nat) ≠ 42 ∧
    subIdxs "length".data (generateTypeOrmColumn "hash" "bytes" "8").data = [] := by decide

/-- Claim C5 (amended): address, fixed-bytes, dynamic-bytes and string are all
stored as `varchar` columns; only `address` additionally receives a maximum
length, and that length is always the 32-byte constant `BYTES_32_LENGTH`
(`2 + 2×32 = 66` hex characters) rather than `2 + 2×byteLength` of the actual
type; fixed-bytes and the other string-like kinds receive no length bound. -/
theorem c5_varchar_columns (name utype tsize : String)
    (h : utype = "address" ∨ utype = "bytes" ∨ utype = "string") :
    generateTypeOrmColumn name utype tsize =
      "  @Column(\x7b\n    name: \"" ++ snakeCase name ++
      "\",\n    nullable: false,\n    " ++ "type: \"varchar\"" ++ ",\n    update: false,\n    " ++
      (if utype = "address" then "length: constants.BYTES_32_LENGTH,\n" else "") ++
      "  \x7d)\n  public " ++ name ++ ": " ++ "string" ++ "; // " ++ utype ++ "\n\n" ∧
    bytesLengthConstant 32 = 2 + 2 * 32 := by
  rcases h with rfl | rfl | rfl <;>
    exact ⟨by simp [generateTypeOrmColumn], by decide⟩

/-- Claim C5 (amended, witness): instantiation at an address field and the
evaluated 32-byte constant. -/
theorem c5_varchar_columns_witness :
    generateTypeOrmColumn "to" "address" "" =
      "  @Column(\x7b\n    name: \"" ++ snakeCase "to" ++
      "\",\n    nullable: false,\n    " ++ "type: \"varchar\"" ++ ",\n    update: false,\n    " ++
      (if ("address" : String) = "address" then "length: constants.BYTES_32_LENGTH,\n" else "") ++
      "  \x7d)\n  public " ++ "to" ++ ": " ++ "string" ++ "; // " ++ "address" ++ "\n\n" ∧
    bytesLengthConstant 32 = 2 + 2 * 32 :=
  c5_varchar_columns "to" "address" "" (Or.inl rfl)

/-! ## Claim C7: name synthesis determinism and fingerprint sensitivity -/

/-- Claim C7.  `generateTableName` and `generateTypeOrmEntityName` are pure:
repeated application to the same `(fieldName, fingerprint)` pair yields
identical strings, and for a fixed field name two different fingerprints yield
different table names and different entity names. -/
theorem c7_name_synthesis (n t1 t2 : String) (h : t1 ≠ t2) :
    generateTableName n t1 = generateTableName n t1 ∧
    generateTypeOrmEntityName n t1 = generateTypeOrmEntityName n t1 ∧
    generateTableName n t1 ≠ generateTableName n t2 ∧
    generateTypeOrmEntityName n t1 ≠ generateTypeOrmEntityName n t2 := by
  refine ⟨rfl, rfl, ?_, ?_⟩
  · intro he
    apply h
    have hd := congrArg String.data he
    simp only [generateTableName, String.data_append] at hd
    exact String.ext (List.append_cancel_left hd)
  · intro he
    apply h
    have hd := congrArg String.data he
    simp only [generateTypeOrmEntityName, String.data_append] at hd
    exact String.ext (List.append_cancel_left hd)

/-- Claim C7 (witness): instantiation at the field `"transfer"` with two
distinct fingerprints. -/
theorem c7_name_synthesis_witness :
    generateTableName "transfer" "ab12" = generateTableName "transfer" "ab12" ∧
    generateTypeOrmEntityName "transfer" "ab12" = generateTypeOrmEntityName "transfer" "ab12" ∧
    generateTableName "transfer" "ab12" ≠ generateTableName "transfer" "cd34" ∧
    generateTypeOrmEntityName "transfer" "ab12" ≠ generateTypeOrmEntityName "transfer" "cd34" :=
  c7_name_synthesis "transfer" "ab12" "cd34" (by decide)

/-! ## Claim C6: the parent back-reference of child entities -/

set_option maxRecDepth 100000
set_option maxHeartbeats 4000000

/-- Claim C6 (counterexample).  The claim says every generated child entity —
one-to-one children included — receives a `@ManyToOne` back-reference to its
parent; but the generated text of the non-array (one-to-one) child `position`
of parent `myEvent` contains no `@ManyToOne` occurrence at all: the final
rewriting step replaced the back-reference's decorator with `@OneToOne`
(found at index 632). -/
theorem c6_counterexample :
    subIdxs "@ManyToOne".data
      (generateTypeOrmEntity "position" "ab12cd"
        [⟨"x", "uint256", []⟩] (some "myEvent") false).data = [] ∧
    subIdxs "@OneToOne".data
      (generateTypeOrmEntity "position" "ab12cd"
        [⟨"x", "uint256", []⟩] (some "myEvent") false).data = [632] := by decide

/-- Claim C6 (amended).  Every generated child entity initially receives a
`@ManyToOne` back-reference to its parent (the text built by
`paramsToTypeOrmColumns` ends with the back-reference block, which starts with
`@ManyToOne`); an array (one-to-many) child keeps it, but a non-array
(one-to-one) child has the last `ManyToOne` occurrence — the back-reference's
decorator, under the hypotheses locating it — rewritten to `OneToOne`, so
one-to-one children end up with a one-to-one back-reference instead. -/
theorem c6_backref_rewrite (entityName topic parent : String) (inputs : List Param) (i : Nat)
    (hcnt : (subIdxs manyToOnePat
      (entityTextRaw entityName topic inputs (some parent)).data).length = 2)
    (hlast : (subIdxs manyToOnePat
      (entityTextRaw entityName topic inputs (some parent)).data).getLast? = some i) :
    paramsToTypeOrmColumns inputs topic (camelcase entityName) (some parent) =
      String.join (inputs.map (fun p => emitField p topic (camelcase entityName))) ++
        backRefBlock parent topic (camelcase entityName) ∧
    textStartsWith (backRefBlock parent topic (camelcase entityName)) "  @ManyToOne(" = true ∧
    generateTypeOrmEntity entityName topic inputs (some parent) true =
      entityTextRaw entityName topic inputs (some parent) ∧
    generateTypeOrmEntity entityName topic inputs (some parent) false =
      ⟨(entityTextRaw entityName topic inputs (some parent)).data.take i ++
        "OneToOne".data ++
        (entityTextRaw entityName topic inputs (some parent)).data.drop (i + 9)⟩ := by
  refine ⟨rfl, ?_, rfl, ?_⟩
  · simp only [backRefBlock]
    repeat apply textStartsWith_true_of
    decide
  · simp only [generateTypeOrmEntity, applyBackrefRewrite, Bool.false_eq_true, if_false]
    rw [hlast, hcnt]
    simp

/-- Claim C6 (amended, witness): the hypotheses hold for the concrete
non-array child `position` of `myEvent`, whose two `ManyToOne` occurrences are
the import list and the back-reference, the latter last at index 633. -/
theorem c6_backref_rewrite_witness :
    paramsToTypeOrmColumns [⟨"x", "uint256", []⟩] "ab12cd" (camelcase "position")
        (some "myEvent") =
      String.join ([⟨"x", "uint256", []⟩].map
        (fun p => emitField p "ab12cd" (camelcase "position"))) ++
        backRefBlock "myEvent" "ab12cd" (camelcase "position") ∧
    textStartsWith (backRefBlock "myEvent" "ab12cd" (camelcase "position"))
      "  @ManyToOne(" = true ∧
    generateTypeOrmEntity "position" "ab12cd" [⟨"x", "uint256", []⟩] (some "myEvent") true =
      entityTextRaw "position" "ab12cd" [⟨"x", "uint256", []⟩] (some "myEvent") ∧
    generateTypeOrmEntity "position" "ab12cd" [⟨"x", "uint256", []⟩] (some "myEvent") false =
      ⟨(entityTextRaw "position" "ab12cd" [⟨"x", "uint256", []⟩] (some "myEvent")).data.take 633 ++
        "OneToOne".data ++
        (entityTextRaw "position" "ab12cd"
          [⟨"x", "uint256", []⟩] (some "myEvent")).data.drop (633 + 9)⟩ :=
  c6_backref_rewrite "position" "ab12cd" "myEvent" [⟨"x", "uint256", []⟩] 633
    (by decide) (by decide)

/-! ## Claim C8: precision constants are decimal digit counts -/

/-- Claim C8.  For every width `w ∈ {8, 16, …, 256}` in the generated table,
`UINT_w_MAX_DIGITS` is the number of decimal digits of `2^w − 1` and
`INT_w_MAX_DIGITS` is the number of decimal digits of `2^(w−1) − 1` — stated
through the characterizing bounds `10^(d−1) ≤ M < 10^d` with `d ≥ 1`, which
determine the decimal digit count `d` of `M` uniquely. -/
theorem c8_digit_precision :
    ∀ p ∈ numericConstantsList,
      1 ≤ p.2.1 ∧ 10 ^ (p.2.1 - 1) ≤ 2 ^ p.1 - 1 ∧ 2 ^ p.1 - 1 < 10 ^ p.2.1 ∧
      1 ≤ p.2.2 ∧ 10 ^ (p.2.2 - 1) ≤ 2 ^ (p.1 - 1) - 1 ∧ 2 ^ (p.1 - 1) - 1 < 10 ^ p.2.2 := by
  decide

/-- Claim C8 (witness): the 256-bit row of the generated table. -/
theorem c8_digit_precision_witness :
    1 ≤ (256, uintMaxDigitsConst 256, intMaxDigitsConst 256).2.1 ∧
    10 ^ ((256, uintMaxDigitsConst 256, intMaxDigitsConst 256).2.1 - 1) ≤
      2 ^ (256, uintMaxDigitsConst 256, intMaxDigitsConst 256).1 - 1 ∧
    2 ^ (256, uintMaxDigitsConst 256, intMaxDigitsConst 256).1 - 1 <
      10 ^ (256, uintMaxDigitsConst 256, intMaxDigitsConst 256).2.1 ∧
    1 ≤ (256, uintMaxDigitsConst 256, intMaxDigitsConst 256).2.2 ∧
    10 ^ ((256, uintMaxDigitsConst 256, intMaxDigitsConst 256).2.2 - 1) ≤
      2 ^ ((256, uintMaxDigitsConst 256, intMaxDigitsConst 256).1 - 1) - 1 ∧
    2 ^ ((256, uintMaxDigitsConst 256, intMaxDigitsConst 256).1 - 1) - 1 <
      10 ^ (256, uintMaxDigitsConst 256, intMaxDigitsConst 256).2.2 :=
  c8_digit_precision (256, uintMaxDigitsConst 256, intMaxDigitsConst 256) (by decide)

/-! ## Claim C9: schema-qualifying migration rewrites -/

theorem splitAtQuote_append {name : List Char} (rest : List Char) (h : '"' ∉ name) :
    splitAtQuote (name ++ '"' :: rest) = some (name, rest) := by
  induction name with
  | nil => simp [splitAtQuote]
  | cons c cs ih =>
    have hc : ¬(c = '"') := fun e => h (by rw [e]; exact List.mem_cons_self _ _)
    have h' : '"' ∉ cs := fun m => h (List.mem_cons_of_mem c m)
    rw [List.cons_append]
    simp [splitAtQuote, hc, ih h']

theorem splitAtQuote_shape {s a b : List Char} (h : splitAtQuote s = some (a, b)) :
    s = a ++ '"' :: b := by
  induction s generalizing a b with
  | nil => exact absurd h (by simp [splitAtQuote])
  | cons c cs ih =>
    by_cases hc : c = '"'
    · subst hc
      simp [splitAtQuote] at h
      obtain ⟨rfl, rfl⟩ := h
      rfl
    · rw [show splitAtQuote (c :: cs)
            = match splitAtQuote cs with
              | some (a, b) => some (c :: a, b)
              | none => none from by simp [splitAtQuote, hc]] at h
      cases hsc : splitAtQuote cs with
      | none => rw [hsc] at h; exact absurd h (by simp)
      | some p =>
        obtain ⟨a', b'⟩ := p
        rw [hsc] at h
        simp only [Option.some.injEq, Prod.mk.injEq] at h
        obtain ⟨rfl, rfl⟩ := h
        rw [List.cons_append, ← ih hsc]

theorem tryRule_length {r : RewriteRule} {s out rest : List Char}
    (h : tryRule r s = some (out, rest)) : rest.length < s.length := by
  unfold tryRule at h
  by_cases hm : headMatch r.pat s = true
  · rw [if_pos hm] at h
    cases hsp : splitAtQuote (s.drop r.pat.length) with
    | none => rw [hsp] at h; exact absurd h (by simp)
    | some p =>
      obtain ⟨name, rest'⟩ := p
      rw [hsp] at h
      have h' : (if name = [] then none
          else some (r.pre ++ name ++ r.post, rest')) = some (out, rest) := h
      by_cases hn : name = []
      · rw [if_pos hn] at h'; exact absurd h' (by simp)
      · rw [if_neg hn] at h'
        simp only [Option.some.injEq, Prod.mk.injEq] at h'
        obtain ⟨-, rfl⟩ := h'
        have hshape := splitAtQuote_shape hsp
        have hlen : (s.drop r.pat.length).length ≤ s.length := by
          rw [List.length_drop]; omega
        rw [hshape] at hlen
        simp only [List.length_append, List.length_cons] at hlen
        omega
  · rw [if_neg hm] at h; exact absurd h (by simp)

theorem tryRules_length {rules : List RewriteRule} {s out rest : List Char}
    (h : tryRules rules s = some (out, rest)) : rest.length < s.length := by
  induction rules with
  | nil => exact absurd h (by simp [tryRules])
  | cons r rs ih =>
    rw [show tryRules (r :: rs) s
          = match tryRule r s with
            | some x => some x
            | none => tryRules rs s from rfl] at h
    cases htr : tryRule r s with
    | none => rw [htr] at h; exact ih h
    | some p => rw [htr] at h; cases h; exact tryRule_length htr

theorem scanF_irrel (rules : List RewriteRule) :
    ∀ (n m : Nat) (s : List Char), s.length ≤ n → s.length ≤ m →
      scanF rules n s = scanF rules m s := by
  intro n
  induction n with
  | zero =>
    intro m s hn _
    have : s = [] := List.eq_nil_of_length_eq_zero (Nat.le_zero.mp hn)
    subst this
    cases m <;> rfl
  | succ n ih =>
    intro m s hn hm
    cases s with
    | nil => cases m <;> rfl
    | cons c cs =>
      cases m with
      | zero => simp at hm
      | succ m' =>
        simp only [scanF]
        cases htr : tryRules rules (c :: cs) with
        | none =>
          simp only
          rw [ih m' cs (by simp at hn; omega) (by simp at hm; omega)]
        | some p =>
          obtain ⟨out, rest⟩ := p
          simp only
          have hlt := tryRules_length htr
          simp only [List.length_cons] at hlt hn hm
          rw [ih m' rest (by omega) (by omega)]

theorem runScan_match {rules : List RewriteRule} {s : String} {out : List Char} {rs : String}
    (hm : tryRules rules s.data = some (out, rs.data)) :
    runScan rules s = ⟨out⟩ ++ runScan rules rs := by
  have hlt := tryRules_length hm
  show (⟨scanF rules s.data.length s.data⟩ : String) = _
  cases hsd : s.data with
  | nil => rw [hsd] at hlt; simp at hlt
  | cons c cs =>
    rw [hsd] at hm hlt
    show (⟨scanF rules (c :: cs).length (c :: cs)⟩ : String) = _
    rw [show (c :: cs).length = cs.length + 1 from rfl]
    simp only [scanF]
    rw [hm]
    simp only
    rw [scanF_irrel rules cs.length rs.data.length rs.data
      (by simp only [List.length_cons] at hlt; omega) (Nat.le_refl _)]
    rfl

theorem tryRule_eval (r : RewriteRule) (t rest : List Char) (ht : t ≠ []) (hq : '"' ∉ t) :
    tryRule r (r.pat ++ (t ++ '"' :: rest)) = some (r.pre ++ t ++ r.post, rest) := by
  unfold tryRule
  rw [if_pos (headMatch_self_append _ _), List.drop_left, splitAtQuote_append rest hq]
  show (if t = [] then none else some (r.pre ++ t ++ r.post, rest)) = _
  rw [if_neg ht]

/-- Claim C9.  Every `CREATE TABLE "t"…` and `ALTER TABLE [ONLY ]"t"…`
statement in the forward list is rewritten so the created or altered table
name is qualified with the configured schema name; every `DROP TABLE "t"…`
statement in the reverse list is rewritten to a schema-qualified
`DROP TABLE IF EXISTS … CASCADE`; and the forward statements are preceded by a
`CREATE SCHEMA IF NOT EXISTS` preamble for that schema.  Rewriting continues
in the remainder of each statement, expressed by the trailing recursive
`runScan`. -/
theorem c9_schema_qualification (schema t rest : String)
    (ht : t.data ≠ []) (hq : '"' ∉ t.data) :
    runScan (createTableRules schema) ("CREATE TABLE \"" ++ t ++ "\"" ++ rest) =
      "CREATE TABLE \"" ++ schema ++ "\".\"" ++ t ++ "\"" ++
        runScan (createTableRules schema) rest ∧
    runScan (alterTableRules schema) ("ALTER TABLE \"" ++ t ++ "\"" ++ rest) =
      "ALTER TABLE \"" ++ schema ++ "\".\"" ++ t ++ "\"" ++
        runScan (alterTableRules schema) rest ∧
    runScan (alterTableRules schema) ("ALTER TABLE ONLY \"" ++ t ++ "\"" ++ rest) =
      "ALTER TABLE ONLY \"" ++ schema ++ "\".\"" ++ t ++ "\"" ++
        runScan (alterTableRules schema) rest ∧
    rewriteDownQuery schema ("DROP TABLE \"" ++ t ++ "\"" ++ rest) =
      "DROP TABLE IF EXISTS \"" ++ schema ++ "\".\"" ++ t ++ "\" CASCADE" ++
        rewriteDownQuery schema rest ∧
    (∀ ups : List String, migrationUpStatements schema ups =
      ("CREATE SCHEMA IF NOT EXISTS \"" ++ schema ++ "\"") ::
        ups.map (rewriteUpQuery schema)) ∧
    (∀ downs : List String, migrationDownStatements schema downs =
      downs.map (rewriteDownQuery schema)) := by
  have hqd : ("\"" : String).data = ['"'] := by decide
  refine ⟨?_, ?_, ?_, ?_, fun _ => rfl, fun _ => rfl⟩
  · have hS : ("CREATE TABLE \"" ++ t ++ "\"" ++ rest).data
        = "CREATE TABLE \"".data ++ (t.data ++ '"' :: rest.data) := by
      simp [String.data_append, hqd]
    have hm : tryRules (createTableRules schema)
        ("CREATE TABLE \"" ++ t ++ "\"" ++ rest).data
        = some (("CREATE TABLE \"" ++ schema ++ "\".\"").data ++ t.data ++ "\"".data,
            rest.data) := by
      rw [hS]
      show (match tryRule ⟨"CREATE TABLE \"".data,
              ("CREATE TABLE \"" ++ schema ++ "\".\"").data, "\"".data⟩
              ("CREATE TABLE \"".data ++ (t.data ++ '"' :: rest.data)) with
            | some x => some x
            | none => none) = _
      rw [tryRule_eval ⟨"CREATE TABLE \"".data,
        ("CREATE TABLE \"" ++ schema ++ "\".\"").data, "\"".data⟩ t.data rest.data ht hq]
    rw [runScan_match hm]
    apply String.ext
    show ("CREATE TABLE \"" ++ schema ++ "\".\"").data ++ t.data ++ "\"".data ++
        (runScan (createTableRules schema) rest).data = _
    simp [String.data_append, hqd]
  · have hS : ("ALTER TABLE \"" ++ t ++ "\"" ++ rest).data
        = "ALTER TABLE \"".data ++ (t.data ++ '"' :: rest.data) := by
      simp [String.data_append, hqd]
    have honly : headMatch "ALTER TABLE ONLY \"".data
        ("ALTER TABLE \"".data ++ (t.data ++ '"' :: rest.data)) = false := by
      rw [show ("ALTER TABLE ONLY \"" : String).data
            = "ALTER TABLE ".data ++ "ONLY \"".data from by decide,
          show ("ALTER TABLE \"" : String).data
            = "ALTER TABLE ".data ++ ['"'] from by decide,
          List.append_assoc, headMatch_cancel,
          show ("ONLY \"" : String).data = 'O' :: "NLY \"".data from by decide]
      simp [headMatch]
    have hm : tryRules (alterTableRules schema)
        ("ALTER TABLE \"" ++ t ++ "\"" ++ rest).data
        = some (("ALTER TABLE \"" ++ schema ++ "\".\"").data ++ t.data ++ "\"".data,
            rest.data) := by
      rw [hS]
      show (match tryRule ⟨"ALTER TABLE ONLY \"".data,
              ("ALTER TABLE ONLY \"" ++ schema ++ "\".\"").data, "\"".data⟩
              ("ALTER TABLE \"".data ++ (t.data ++ '"' :: rest.data)) with
            | some x => some x
            | none =>
              match tryRule ⟨"ALTER TABLE \"".data,
                ("ALTER TABLE \"" ++ schema ++ "\".\"").data, "\"".data⟩
                ("ALTER TABLE \"".data ++ (t.data ++ '"' :: rest.data)) with
              | some x => some x
              | none => none) = _
      rw [show tryRule ⟨"ALTER TABLE ONLY \"".data,
            ("ALTER TABLE ONLY \"" ++ schema ++ "\".\"").data, "\"".data⟩
            ("ALTER TABLE \"".data ++ (t.data ++ '"' :: rest.data)) = none from by
          unfold tryRule; rw [honly]; simp]
      rw [tryRule_eval ⟨"ALTER TABLE \"".data,
        ("ALTER TABLE \"" ++ schema ++ "\".\"").data, "\"".data⟩ t.data rest.data ht hq]
    rw [runScan_match hm]
    apply String.ext
    show ("ALTER TABLE \"" ++ schema ++ "\".\"").data ++ t.data ++ "\"".data ++
        (runScan (alterTableRules schema) rest).data = _
    simp [String.data_append, hqd]
  · have hS : ("ALTER TABLE ONLY \"" ++ t ++ "\"" ++ rest).data
        = "ALTER TABLE ONLY \"".data ++ (t.data ++ '"' :: rest.data) := by
      simp [String.data_append, hqd]
    have hm : tryRules (alterTableRules schema)
        ("ALTER TABLE ONLY \"" ++ t ++ "\"" ++ rest).data
        = some (("ALTER TABLE ONLY \"" ++ schema ++ "\".\"").data ++ t.data ++ "\"".data,
            rest.data) := by
      rw [hS]
      show (match tryRule ⟨"ALTER TABLE ONLY \"".data,
              ("ALTER TABLE ONLY \"" ++ schema ++ "\".\"").data, "\"".data⟩
              ("ALTER TABLE ONLY \"".data ++ (t.data ++ '"' :: rest.data)) with
            | some x => some x
            | none =>
              match tryRule ⟨"ALTER TABLE \"".data,
                ("ALTER TABLE \"" ++ schema ++ "\".\"").data, "\"".data⟩
                ("ALTER TABLE ONLY \"".data ++ (t.data ++ '"' :: rest.data)) with
              | some x => some x
              | none => none) = _
      rw [tryRule_eval ⟨"ALTER TABLE ONLY \"".data,
        ("ALTER TABLE ONLY \"" ++ schema ++ "\".\"").data, "\"".data⟩ t.data rest.data ht hq]
    rw [runScan_match hm]
    apply String.ext
    show ("ALTER TABLE ONLY \"" ++ schema ++ "\".\"").data ++ t.data ++ "\"".data ++
        (runScan (alterTableRules schema) rest).data = _
    simp [String.data_append, hqd]
  · have hS : ("DROP TABLE \"" ++ t ++ "\"" ++ rest).data
        = "DROP TABLE \"".data ++ (t.data ++ '"' :: rest.data) := by
      simp [String.data_append, hqd]
    have hm : tryRules (dropTableRules schema)
        ("DROP TABLE \"" ++ t ++ "\"" ++ rest).data
        = some (("DROP TABLE IF EXISTS \"" ++ schema ++ "\".\"").data ++ t.data ++
            "\" CASCADE".data, rest.data) := by
      rw [hS]
      show (match tryRule ⟨"DROP TABLE \"".data,
              ("DROP TABLE IF EXISTS \"" ++ schema ++ "\".\"").data, "\" CASCADE".data⟩
              ("DROP TABLE \"".data ++ (t.data ++ '"' :: rest.data)) with
            | some x => some x
            | none => none) = _
      rw [tryRule_eval ⟨"DROP TABLE \"".data,
        ("DROP TABLE IF EXISTS \"" ++ schema ++ "\".\"").data, "\" CASCADE".data⟩
        t.data rest.data ht hq]
    rw [show rewriteDownQuery schema ("DROP TABLE \"" ++ t ++ "\"" ++ rest)
          = runScan (dropTableRules schema) ("DROP TABLE \"" ++ t ++ "\"" ++ rest) from rfl,
        runScan_match hm]
    apply String.ext
    show ("DROP TABLE IF EXISTS \"" ++ schema ++ "\".\"").data ++ t.data ++
        "\" CASCADE".data ++ (rewriteDownQuery schema rest).data = _
    simp [String.data_append, hqd, rewriteDownQuery]

/-- Claim C9 (witness): instantiation at schema `"app"`, table `"orders"` and
an empty statement remainder. -/
theorem c9_schema_qualification_witness :
    runScan (createTableRules "app") ("CREATE TABLE \"" ++ "orders" ++ "\"" ++ "") =
      "CREATE TABLE \"" ++ "app" ++ "\".\"" ++ "orders" ++ "\"" ++
        runScan (createTableRules "app") "" ∧
    runScan (alterTableRules "app") ("ALTER TABLE \"" ++ "orders" ++ "\"" ++ "") =
      "ALTER TABLE \"" ++ "app" ++ "\".\"" ++ "orders" ++ "\"" ++
        runScan (alterTableRules "app") "" ∧
    runScan (alterTableRules "app") ("ALTER TABLE ONLY \"" ++ "orders" ++ "\"" ++ "") =
      "ALTER TABLE ONLY \"" ++ "app" ++ "\".\"" ++ "orders" ++ "\"" ++
        runScan (alterTableRules "app") "" ∧
    rewriteDownQuery "app" ("DROP TABLE \"" ++ "orders" ++ "\"" ++ "") =
      "DROP TABLE IF EXISTS \"" ++ "app" ++ "\".\"" ++ "orders" ++ "\" CASCADE" ++
        rewriteDownQuery "app" "" ∧
    (∀ ups : List String, migrationUpStatements "app" ups =
      ("CREATE SCHEMA IF NOT EXISTS \"" ++ "app" ++ "\"") ::
        ups.map (rewriteUpQuery "app")) ∧
    (∀ downs : List String, migrationDownStatements "app" downs =
      downs.map (rewriteDownQuery "app")) :=
  c9_schema_qualification "app" "orders" "" (by decide) (by decide)
